import Mathlib

/-!
Shallow embedding of the CollabCode Studio backend (src/main.py, src/schemas.py).

Modelling choices:
* Python strings are `List Char` (`Str`); `str.split`, `str.lower`,
  `str.startswith` become the corresponding list operations.
* UTC timestamps are `Nat` (seconds); `timedelta(days=7)` is `sevenDays`.
* `hashlib.sha256(...).hexdigest()` is an external library call; it is taken
  as an abstract parameter `sha256hex : Str → Str` of the definitions that
  use it.  The property of hex digests that the code relies on (no `'$'`
  character) appears as an explicit hypothesis where needed.
* `secrets.token_hex` / `secrets.token_urlsafe` are randomness sources; the
  produced salt/token is passed in as a parameter.
* MongoDB collections are lists of documents; `find_one(filter)` is
  `List.find?` (first match in insertion order), `find().sort(created_at,-1)`
  is a stable merge sort by descending `created_at`, `.limit(50)` is
  `List.take 50`.  ObjectIds are `Nat` drawn from a counter, so
  `ObjectId.is_valid` on ids produced by the store is always true and the
  validity test is elided.
-/

abbrev Str := List Char

/-- Seven days in seconds (`timedelta(days=7)`). -/
def sevenDays : Nat := 7 * 24 * 60 * 60

/-! ## Credential hasher (`main.py` 65–76) -/

/-- `hash_password` (main.py 65–68): returns `f"{salt}${hashed}"` where
`hashed = sha256((salt + password).encode()).hexdigest()`; the random salt
produced by `secrets.token_hex(16)` is a parameter. -/
def hash_password (sha256hex : Str → Str) (salt password : Str) : Str :=
  salt ++ '$' :: sha256hex (salt ++ password)

/-- `verify_password` (main.py 71–76): `salt, hashed = stored_hash.split("$")`
succeeds only when the split yields exactly two parts (otherwise the
`ValueError` is caught and the function returns `False`); on success it
compares the recomputed digest with the stored one. -/
def verify_password (sha256hex : Str → Str) (password stored_hash : Str) : Bool :=
  match stored_hash.splitOn '$' with
  | [salt, hashed] => sha256hex (salt ++ password) == hashed
  | _ => false

/-! ## Document store -/

/-- A document of the "authuser" collection (schemas.py `AuthUser`, plus the
store-generated `_id` and stamped `created_at`). -/
structure UserDoc where
  id : Nat
  name : Str
  email : Str
  password_hash : Str
  created_at : Nat
deriving DecidableEq, Repr

/-- A document of the "session" collection (schemas.py `Session`).  The
store also generates an `_id` for sessions, but the code never reads it, so
it is elided. -/
structure SessionDoc where
  user_id : Nat
  token : Str
  expires_at : Nat
  created_at : Nat
deriving DecidableEq, Repr

/-- A document of the "chatmessage" collection (schemas.py `ChatMessage`,
plus `_id` and stamped `created_at`). -/
structure MessageDoc where
  id : Nat
  user_id : Nat
  content : Str
  created_at : Nat
deriving DecidableEq, Repr

/-- The database state: the three collections used by the app, plus the
counter from which fresh document identifiers are drawn. -/
structure DB where
  authuser : List UserDoc
  session : List SessionDoc
  chatmessage : List MessageDoc
  nextId : Nat
deriving DecidableEq, Repr

/-- Modelled from the spec: `create_document` lives in `database.py`, which
is not part of the sources; spec §6 describes it as "a generic create
document helper that stamps created_at/updated_at and returns the new
identifier".  Inserting an `AuthUser` appends a document stamped with the
current time and a fresh identifier to the "authuser" collection and
returns the identifier. -/
def createUserDocument (db : DB) (now : Nat) (name email password_hash : Str) :
    DB × Nat :=
  ({ db with
      authuser := db.authuser ++ [⟨db.nextId, name, email, password_hash, now⟩]
      nextId := db.nextId + 1 },
   db.nextId)

/-- Modelled from the spec: `create_document` applied to a `Session`
document (see `createUserDocument`); the session's generated `_id` is never
read by the code and is elided. -/
def createSessionDocument (db : DB) (now : Nat) (user_id : Nat) (token : Str)
    (expires_at : Nat) : DB :=
  { db with session := db.session ++ [⟨user_id, token, expires_at, now⟩] }

/-- Modelled from the spec: `create_document` applied to a `ChatMessage`
document (see `createUserDocument`). -/
def createMessageDocument (db : DB) (now : Nat) (user_id : Nat) (content : Str) :
    DB × Nat :=
  ({ db with
      chatmessage := db.chatmessage ++ [⟨db.nextId, user_id, content, now⟩]
      nextId := db.nextId + 1 },
   db.nextId)

/-- `db["authuser"].find_one({"_id": ObjectId(uid)})`. -/
def findUserById (db : DB) (uid : Nat) : Option UserDoc :=
  db.authuser.find? (fun u => u.id == uid)

/-! ## Session store (`main.py` 79–94) -/

/-- `create_session` (main.py 79–84): expiry is now + 7 days; the random
token from `secrets.token_urlsafe(32)` is a parameter.  Returns the updated
store and the token. -/
def create_session (db : DB) (now : Nat) (token : Str) (user_id : Nat) :
    DB × Str :=
  (createSessionDocument db now user_id token (now + sevenDays), token)

/-- `get_user_by_token` (main.py 87–94): finds a session whose token matches
and whose `expires_at` is strictly greater than the current time, then loads
the referenced user. -/
def get_user_by_token (db : DB) (now : Nat) (token : Str) : Option UserDoc :=
  match db.session.find? (fun s => s.token == token && decide (now < s.expires_at)) with
  | none => none
  | some sess => findUserById db sess.user_id

/-! ## HTTP results -/

/-- Outcome of an endpoint: a value, or an `HTTPException(status, detail)`. -/
inductive ApiResult (α : Type) where
  | ok (value : α)
  | err (status : Nat) (detail : Str)
deriving DecidableEq, Repr

def missingAuthDetail : Str := "Missing Authorization header".toList
def malformedAuthDetail : Str := "Invalid Authorization header".toList
def invalidTokenDetail : Str := "Invalid or expired token".toList
def invalidCredentialsDetail : Str := "Invalid credentials".toList
def duplicateEmailDetail : Str := "Email already registered".toList

/-- Body of `LoginResponse` (main.py 109–112). -/
structure LoginResponse where
  token : Str
  name : Str
  email : Str
deriving DecidableEq, Repr

/-! ## Auth endpoints (`main.py` 127–148) -/

/-- `register` (main.py 127–137).  The salt consumed by `hash_password` and
the token consumed by `create_session` are parameters (randomness).  Returns
the outcome and the resulting store (unchanged when the request fails,
since the exception is raised before any insert). -/
def register (sha256hex : Str → Str) (db : DB) (now : Nat) (salt token : Str)
    (name email password : Str) : ApiResult LoginResponse × DB :=
  match db.authuser.find? (fun u => u.email == email) with
  | some _ => (.err 400 duplicateEmailDetail, db)
  | none =>
    let (db1, user_id) :=
      createUserDocument db now name email (hash_password sha256hex salt password)
    let (db2, tok) := create_session db1 now token user_id
    (.ok ⟨tok, name, email⟩, db2)

/-- `login` (main.py 140–148): a single `Invalid credentials` error both
when no user matches the email and when password verification fails. -/
def login (sha256hex : Str → Str) (db : DB) (now : Nat) (token : Str)
    (email password : Str) : ApiResult LoginResponse × DB :=
  match db.authuser.find? (fun u => u.email == email) with
  | none => (.err 401 invalidCredentialsDetail, db)
  | some user =>
    if verify_password sha256hex password user.password_hash then
      let (db1, tok) := create_session db now token user.id
      (.ok ⟨tok, user.name, user.email⟩, db1)
    else (.err 401 invalidCredentialsDetail, db)

/-! ## Authentication dependency (`main.py` 153–162) -/

/-- `s.lower()` (ASCII case folding, which is all `Char.toLower` and the
header strings involve). -/
def lowerStr (s : Str) : Str := s.map Char.toLower

/-- The scheme the header must start with, after lowering. -/
def bearerScheme : Str := "bearer ".toList

/-- `s.startswith(pre)`. -/
def startsWith : Str → Str → Bool
  | _, [] => true
  | [], _ :: _ => false
  | c :: cs, d :: ds => c == d && startsWith cs ds

/-- `s.split(" ", 1)[1]`: everything after the first space (the code only
evaluates this when a space is known to occur in `s`). -/
def afterFirstSpace : Str → Str
  | [] => []
  | c :: cs => if c = ' ' then cs else afterFirstSpace cs

/-- `get_current_user` (main.py 153–162).  Note `if not authorization:` is
Python falsiness: it fires both when the header is absent and when it is the
empty string. -/
def get_current_user (db : DB) (now : Nat) (authorization : Option Str) :
    ApiResult UserDoc :=
  match authorization with
  | none => .err 401 missingAuthDetail
  | some s =>
    if s = [] then .err 401 missingAuthDetail
    else if ! startsWith (lowerStr s) bearerScheme then .err 401 malformedAuthDetail
    else
      match get_user_by_token db now (afterFirstSpace s) with
      | none => .err 401 invalidTokenDetail
      | some u => .ok u

/-! ## Chat endpoints (`main.py` 166–195) -/

/-- Body of `ChatMessageResponse` (main.py 119–123). -/
structure ChatMessageResponse where
  id : Nat
  user_name : Str
  content : Str
  created_at : Nat
deriving DecidableEq, Repr

/-- `db["chatmessage"].find().sort("created_at", -1)`: stable sort by
descending creation time. -/
def sortByCreatedDesc (msgs : List MessageDoc) : List MessageDoc :=
  msgs.mergeSort (fun a b => decide (b.created_at ≤ a.created_at))

/-- The response row built for one message in the loop of `list_messages`
(main.py 172–179): author name resolved via the "authuser" collection, with
the `"Unknown"` fallback when the user record is missing. -/
def messageView (db : DB) (m : MessageDoc) : ChatMessageResponse :=
  { id := m.id
    user_name :=
      match findUserById db m.user_id with
      | some u => u.name
      | none => "Unknown".toList
    content := m.content
    created_at := m.created_at }

/-- `list_messages` (main.py 166–180): most recent 50 messages, built in
descending order of creation time, then reversed. -/
def list_messages (db : DB) : List ChatMessageResponse :=
  (((sortByCreatedDesc db.chatmessage).take 50).map (messageView db)).reverse

/-- Outcome of `post_message`: a response row, or the pydantic
`ValidationError` raised by constructing `ChatMessage`. -/
inductive PostResult where
  | ok (view : ChatMessageResponse)
  | validationError
deriving DecidableEq, Repr

/-- The `ChatMessage` schema's length constraints (schemas.py 48):
`min_length=1, max_length=2000`, enforced by pydantic at construction. -/
def contentValid (content : Str) : Bool :=
  decide (1 ≤ content.length) && decide (content.length ≤ 2000)

/-- `post_message` (main.py 183–195): constructing `ChatMessage` validates
the content length (raising before any insert); on success the message is
stored, re-fetched, and a view with the poster's name is returned. -/
def post_message (db : DB) (now : Nat) (user : UserDoc) (content : Str) :
    PostResult × DB :=
  if contentValid content then
    let (db1, msg_id) := createMessageDocument db now user.id content
    (.ok { id := msg_id, user_name := user.name, content := content, created_at := now },
     db1)
  else (.validationError, db)

/-! ## Theorems -/

/-- If neither part contains the separator, splitting their joining
recovers exactly the two parts. -/
theorem splitOn_two_parts (a b : Str) (ha : '$' ∉ a) (hb : '$' ∉ b) :
    (a ++ '$' :: b).splitOn '$' = [a, b] := by
  have h := List.splitOn_intercalate [a, b] '$'
    (by simpa using ⟨ha, hb⟩) (by simp)
  simpa [List.intercalate] using h

/-- C1: for every password, verifying it against its own freshly produced
hash succeeds: `hash_password` emits `salt ++ "$" ++ digest`, and since a
hex salt and a hex digest contain no `'$'`, `verify_password` splits the
stored value back into exactly that salt and digest and the recomputed
digest matches. -/
theorem verify_hash_roundtrip (sha256hex : Str → Str) (salt password : Str)
    (hsalt : '$' ∉ salt) (hdig : '$' ∉ sha256hex (salt ++ password)) :
    verify_password sha256hex password (hash_password sha256hex salt password) = true := by
  unfold verify_password hash_password
  rw [splitOn_two_parts salt _ hsalt hdig]
  simp

/-- Witness for C1 at a concrete salt, password and digest function. -/
theorem verify_hash_roundtrip_witness :
    ('$' ∉ (['a', 'b'] : Str)) ∧
    verify_password (fun _ => ['0', '1']) ['p', 'w']
      (hash_password (fun _ => ['0', '1']) ['a', 'b'] ['p', 'w']) = true :=
  ⟨by decide,
   verify_hash_roundtrip (fun _ => ['0', '1']) ['a', 'b'] ['p', 'w']
     (by decide) (by decide)⟩

/-- C9: `verify_password` is total — the `try/except` is modelled by the
catch-all `match` arm — and it answers `true` exactly when the stored hash
splits on `'$'` into precisely a salt and a digest and the digest
recomputed from salt and password matches; on every other shape (no `'$'`,
more than one `'$'`, or a non-matching digest) it returns `false`. -/
theorem verify_password_total (sha256hex : Str → Str) (password stored : Str) :
    verify_password sha256hex password stored = true ↔
      ∃ salt hashed, stored.splitOn '$' = [salt, hashed] ∧
        sha256hex (salt ++ password) = hashed := by
  unfold verify_password
  rcases h : stored.splitOn '$' with _ | ⟨a, _ | ⟨b, _ | ⟨c, rest⟩⟩⟩ <;> simp [h]
  exact eq_comm

/-- C2: a session created at time `T` has `expires_at = T + 7 days`, and
`get_user_by_token` resolves it exactly while the query time is strictly
below that expiry (in particular it already fails at exactly `T + 7 days`,
because the lookup uses a strict greater-than comparison): any query time
below the expiry — which includes the whole window `T ≤ T' < T + 7 days`
the claim quantifies over — returns the referenced user, and any query time
at or past the expiry returns none. -/
theorem session_window (db : DB) (T : Nat) (tok : Str) (uid : Nat) (u : UserDoc)
    (hfresh : ∀ s ∈ db.session, s.token ≠ tok)
    (huser : findUserById db uid = some u) (T' : Nat) :
    (T' < T + sevenDays →
      get_user_by_token (create_session db T tok uid).1 T' tok = some u) ∧
    (T + sevenDays ≤ T' →
      get_user_by_token (create_session db T tok uid).1 T' tok = none) := by
  have hnone :
      db.session.find? (fun s => s.token == tok && decide (T' < s.expires_at)) = none := by
    rw [List.find?_eq_none]
    intro s hs
    simp [hfresh s hs]
  constructor
  · intro hT
    unfold get_user_by_token create_session createSessionDocument
    simp only [List.find?_append, hnone, Option.none_or, List.find?_singleton]
    simp [hT]
    simpa [findUserById] using huser
  · intro hT
    have h2 : ¬ (T' < T + sevenDays) := Nat.not_lt.2 hT
    unfold get_user_by_token create_session createSessionDocument
    simp only [List.find?_append, hnone, Option.none_or, List.find?_singleton]
    simp [h2]

/-- Concrete store used by several witnesses: one user, no sessions, no
messages. -/
def dbW : DB :=
  { authuser := [⟨0, "Alice".toList, "a@x.com".toList, "ab$cd".toList, 0⟩]
    session := []
    chatmessage := []
    nextId := 1 }

/-- The single user of `dbW`. -/
def userW : UserDoc := ⟨0, "Alice".toList, "a@x.com".toList, "ab$cd".toList, 0⟩

/-- Witness for C2: in the concrete store, a session created at time 0
resolves at time 3 and no longer resolves at exactly seven days. -/
theorem session_window_witness :
    findUserById dbW 0 = some userW ∧
    get_user_by_token (create_session dbW 0 ['t'] 0).1 3 ['t'] = some userW ∧
    get_user_by_token (create_session dbW 0 ['t'] 0).1 sevenDays ['t'] = none :=
  ⟨by decide,
   (session_window dbW 0 ['t'] 0 userW (by decide) (by decide) 3).1 (by decide),
   (session_window dbW 0 ['t'] 0 userW (by decide) (by decide) sevenDays).2
     (Nat.le_refl _)⟩

/-- The retrieved batch is sorted by descending creation time. -/
theorem sortByCreatedDesc_pairwise (msgs : List MessageDoc) :
    (sortByCreatedDesc msgs).Pairwise (fun a b => b.created_at ≤ a.created_at) := by
  have h := @List.sorted_mergeSort MessageDoc
    (fun a b : MessageDoc => decide (b.created_at ≤ a.created_at))
    (fun a b c hab hbc => by
      simp only [decide_eq_true_eq] at *
      omega)
    (fun a b => by
      simp only [Bool.or_eq_true, decide_eq_true_eq]
      omega)
    msgs
  exact h.imp (by intro a b hab; simpa using hab)

/-- C3: `list_messages` returns exactly `min 50 n` rows where `n` is the
number of stored messages; the rows are ordered ascending by creation time;
every message the query drops is no newer than every message it keeps (so
the batch is the most recent ones); and every returned row is the view of a
stored message — same id, content and creation time, with `user_name`
resolved through the "authuser" collection and falling back to `"Unknown"`
when the user record is missing (this resolution is what `messageView`
performs). -/
theorem list_messages_spec (db : DB) :
    (list_messages db).length = min 50 db.chatmessage.length ∧
    (list_messages db).Pairwise (fun a b => a.created_at ≤ b.created_at) ∧
    (∀ a ∈ (sortByCreatedDesc db.chatmessage).take 50,
      ∀ b ∈ (sortByCreatedDesc db.chatmessage).drop 50,
        b.created_at ≤ a.created_at) ∧
    (∀ v ∈ list_messages db, ∃ m ∈ db.chatmessage, v = messageView db m) := by
  have hsorted := sortByCreatedDesc_pairwise db.chatmessage
  refine ⟨?_, ?_, ?_, ?_⟩
  · simp [list_messages, sortByCreatedDesc]
  · unfold list_messages
    rw [List.pairwise_reverse, List.pairwise_map]
    have htake := hsorted.sublist (List.take_sublist 50 _)
    exact htake.imp (by intro a b hab; simpa [messageView] using hab)
  · have h := hsorted
    rw [← List.take_append_drop 50 (sortByCreatedDesc db.chatmessage),
      List.pairwise_append] at h
    exact fun a ha b hb => h.2.2 a ha b hb
  · intro v hv
    unfold list_messages at hv
    rw [List.mem_reverse] at hv
    rcases List.mem_map.1 hv with ⟨m, hm, rfl⟩
    refine ⟨m, ?_, rfl⟩
    have hmem : m ∈ sortByCreatedDesc db.chatmessage := List.mem_of_mem_take hm
    simpa [sortByCreatedDesc] using hmem

/-- C5: a login with an email matching no stored user and a login with a
stored email whose password verification fails produce the identical
result — the same 401 "Invalid credentials" error with the store left
untouched — so the response does not reveal which check failed. -/
theorem login_indistinguishable (sha256hex : Str → Str) (db : DB)
    (now1 now2 : Nat) (tok1 tok2 : Str) (e1 p1 e2 p2 : Str) (u : UserDoc)
    (h1 : db.authuser.find? (fun v => v.email == e1) = none)
    (h2 : db.authuser.find? (fun v => v.email == e2) = some u)
    (h2v : verify_password sha256hex p2 u.password_hash = false) :
    login sha256hex db now1 tok1 e1 p1 = (.err 401 invalidCredentialsDetail, db) ∧
    login sha256hex db now2 tok2 e2 p2 = (.err 401 invalidCredentialsDetail, db) ∧
    login sha256hex db now1 tok1 e1 p1 = login sha256hex db now2 tok2 e2 p2 := by
  refine ⟨?_, ?_, ?_⟩
  · unfold login
    rw [h1]
  · unfold login
    rw [h2]
    simp [h2v]
  · unfold login
    rw [h1, h2]
    simp [h2v]

/-- Witness for C5: in the concrete store, an unknown email and Alice's
email with a wrong password yield the same error. -/
theorem login_indistinguishable_witness :
    verify_password (fun _ => ['0']) ['x'] userW.password_hash = false ∧
    login (fun _ => ['0']) dbW 1 ['t'] "b@x.com".toList ['q'] =
      (.err 401 invalidCredentialsDetail, dbW) ∧
    login (fun _ => ['0']) dbW 2 ['s'] "a@x.com".toList ['x'] =
      (.err 401 invalidCredentialsDetail, dbW) :=
  ⟨by decide,
   (login_indistinguishable (fun _ => ['0']) dbW 1 2 ['t'] ['s']
      "b@x.com".toList ['q'] "a@x.com".toList ['x'] userW
      (by decide) (by decide) (by decide)).1,
   (login_indistinguishable (fun _ => ['0']) dbW 1 2 ['t'] ['s']
      "b@x.com".toList ['q'] "a@x.com".toList ['x'] userW
      (by decide) (by decide) (by decide)).2.1⟩

/-- C6: registering with an email that is already present fails with the
400 "Email already registered" error and leaves the store exactly as it
was; otherwise exactly one user (whose `password_hash` is the hash of the
given password) and exactly one session for that user are appended, and
the response carries that session's token and the submitted name and
email. -/
theorem register_spec (sha256hex : Str → Str) (db : DB) (now : Nat)
    (salt tok name email password : Str) :
    ((∃ u ∈ db.authuser, u.email = email) →
      register sha256hex db now salt tok name email password =
        (.err 400 duplicateEmailDetail, db)) ∧
    ((∀ u ∈ db.authuser, u.email ≠ email) →
      register sha256hex db now salt tok name email password =
        (.ok ⟨tok, name, email⟩,
         { authuser := db.authuser ++
             [⟨db.nextId, name, email, hash_password sha256hex salt password, now⟩]
           session := db.session ++ [⟨db.nextId, tok, now + sevenDays, now⟩]
           chatmessage := db.chatmessage
           nextId := db.nextId + 1 })) := by
  constructor
  · rintro ⟨u, hu, hemail⟩
    rcases hfind : db.authuser.find? (fun v => v.email == email) with _ | w
    · rw [List.find?_eq_none] at hfind
      exact absurd (by simpa using hemail) (hfind u hu)
    · unfold register
      rw [hfind]
  · intro hnone
    have hfind : db.authuser.find? (fun v => v.email == email) = none := by
      rw [List.find?_eq_none]
      intro v hv
      simpa using hnone v hv
    unfold register createUserDocument create_session createSessionDocument
    rw [hfind]

/-- Witness for C6: both branches at concrete stores — re-registering
Alice's email fails and leaves `dbW` unchanged, registering a fresh email
appends one user and one session. -/
theorem register_spec_witness :
    register (fun _ => ['0']) dbW 4 ['s'] ['t'] "Bob".toList "a@x.com".toList ['p'] =
      (.err 400 duplicateEmailDetail, dbW) ∧
    register (fun _ => ['0']) dbW 4 ['s'] ['t'] "Bob".toList "b@x.com".toList ['p'] =
      (.ok ⟨['t'], "Bob".toList, "b@x.com".toList⟩,
       { authuser := dbW.authuser ++
           [⟨dbW.nextId, "Bob".toList, "b@x.com".toList,
             hash_password (fun _ => ['0']) ['s'] ['p'], 4⟩]
         session := dbW.session ++ [⟨dbW.nextId, ['t'], 4 + sevenDays, 4⟩]
         chatmessage := dbW.chatmessage
         nextId := dbW.nextId + 1 }) :=
  ⟨(register_spec (fun _ => ['0']) dbW 4 ['s'] ['t']
      "Bob".toList "a@x.com".toList ['p']).1 ⟨userW, by decide, by decide⟩,
   (register_spec (fun _ => ['0']) dbW 4 ['s'] ['t']
      "Bob".toList "b@x.com".toList ['p']).2 (by decide)⟩

/-- C8: for content of length 0 or above 2000, `post_message` fails with
the validation error raised by constructing `ChatMessage` (the schema's
`min_length=1, max_length=2000` bounds, enforced by the chat component
itself at message construction): no message is stored — the store comes
back unchanged — and no successful view is returned. -/
theorem post_message_rejects_bad_length (db : DB) (now : Nat) (user : UserDoc)
    (content : Str) (h : content.length = 0 ∨ 2000 < content.length) :
    post_message db now user content = (.validationError, db) := by
  have hc : contentValid content = false := by
    unfold contentValid
    rcases h with h | h
    · simp [h]
    · have h2 : ¬ (content.length ≤ 2000) := by omega
      simp [h2]
  unfold post_message
  rw [hc]
  simp

/-- Witness for C8: the empty content and a 2001-character content are both
rejected with the store unchanged. -/
theorem post_message_rejects_bad_length_witness :
    post_message dbW 5 userW [] = (.validationError, dbW) ∧
    post_message dbW 5 userW (List.replicate 2001 'a') = (.validationError, dbW) :=
  ⟨post_message_rejects_bad_length dbW 5 userW [] (Or.inl rfl),
   post_message_rejects_bad_length dbW 5 userW (List.replicate 2001 'a')
     (Or.inr (by rw [List.length_replicate]; omega))⟩

/-- Counterexample to C4 as stated: the empty string is a *present* header
value that does not start with the bearer scheme, so the claim assigns it
the "Invalid Authorization header" outcome, but `if not authorization:` is
Python falsiness and the code answers "Missing Authorization header". -/
theorem get_current_user_empty_header_cex :
    startsWith (lowerStr []) bearerScheme = false ∧
    get_current_user dbW 0 (some []) = .err 401 missingAuthDetail ∧
    get_current_user dbW 0 (some []) ≠ .err 401 malformedAuthDetail := by
  refine ⟨rfl, rfl, ?_⟩
  decide

/-- C4 (amended): `get_current_user` fails with 401 "Missing Authorization
header" when the header is absent **or empty**; with 401 "Invalid
Authorization header" when the nonempty header does not start
(case-insensitively) with the bearer scheme; with 401 "Invalid or expired
token" when the token after the first space does not resolve to a valid
unexpired session; and otherwise returns the resolved user.  These are the
only outcomes, checked in that order. -/
theorem get_current_user_outcomes (db : DB) (now : Nat) (auth : Option Str) :
    ((auth = none ∨ auth = some []) →
      get_current_user db now auth = .err 401 missingAuthDetail) ∧
    (∀ s, auth = some s → s ≠ [] →
      startsWith (lowerStr s) bearerScheme = false →
      get_current_user db now auth = .err 401 malformedAuthDetail) ∧
    (∀ s, auth = some s → s ≠ [] →
      startsWith (lowerStr s) bearerScheme = true →
      get_user_by_token db now (afterFirstSpace s) = none →
      get_current_user db now auth = .err 401 invalidTokenDetail) ∧
    (∀ s u, auth = some s → s ≠ [] →
      startsWith (lowerStr s) bearerScheme = true →
      get_user_by_token db now (afterFirstSpace s) = some u →
      get_current_user db now auth = .ok u) := by
  refine ⟨?_, ?_, ?_, ?_⟩
  · rintro (rfl | rfl) <;> rfl
  · rintro s rfl hne hpre
    unfold get_current_user
    simp [hne, hpre]
  · rintro s rfl hne hpre hres
    unfold get_current_user
    simp [hne, hpre, hres]
  · rintro s u rfl hne hpre hres
    unfold get_current_user
    simp [hne, hpre, hres]

/-- Witness for the amended C4: an absent header on the concrete store. -/
theorem get_current_user_outcomes_witness :
    get_current_user dbW 0 none = .err 401 missingAuthDetail :=
  (get_current_user_outcomes dbW 0 none).1 (Or.inl rfl)

/-- For a unicode scalar value, `Char.ofNat` round-trips through `toNat`. -/
theorem toNat_ofNat_of_valid {n : Nat} (h : n.isValidChar) :
    (Char.ofNat n).toNat = n := by
  unfold Char.ofNat
  rw [dif_pos h]
  rfl

/-- ASCII lowering maps nothing but the space to the space: it only moves
the basic latin capitals, whose images lie in `[97, 122]`. -/
theorem eq_space_of_toLower_eq_space {c : Char} (h : c.toLower = ' ') :
    c = ' ' := by
  have hdef : c.toLower =
      if c.toNat ≥ 65 ∧ c.toNat ≤ 90 then Char.ofNat (c.toNat + 32) else c := rfl
  rw [hdef] at h
  split at h
  · exfalso
    rename_i hc
    have hval : (c.toNat + 32).isValidChar := Or.inl (by omega)
    have hv : (Char.ofNat (c.toNat + 32)).toNat = c.toNat + 32 :=
      toNat_ofNat_of_valid hval
    rw [h] at hv
    have h32 : (' ' : Char).toNat = 32 := rfl
    omega
  · exact h

/-- A string whose lowering is `"bearer "` is six non-space characters
followed by a literal space. -/
theorem casing_structure (cs : Str) (h : lowerStr cs = bearerScheme) :
    ∃ a b c d e f, cs = [a, b, c, d, e, f, ' '] ∧
      a ≠ ' ' ∧ b ≠ ' ' ∧ c ≠ ' ' ∧ d ≠ ' ' ∧ e ≠ ' ' ∧ f ≠ ' ' := by
  have hbee : bearerScheme = ['b', 'e', 'a', 'r', 'e', 'r', ' '] := rfl
  rw [hbee] at h
  unfold lowerStr at h
  rcases cs with _ | ⟨a, _ | ⟨b, _ | ⟨c, _ | ⟨d, _ | ⟨e, _ | ⟨f, _ | ⟨g, rest⟩⟩⟩⟩⟩⟩⟩ <;>
    simp at h
  obtain ⟨h1, h2, h3, h4, h5, h6, h7, h8⟩ := h
  have hg : g = ' ' := eq_space_of_toLower_eq_space h7
  refine ⟨a, b, c, d, e, f, by rw [hg, h8], ?_, ?_, ?_, ?_, ?_, ?_⟩
  · rintro rfl; revert h1; decide
  · rintro rfl; revert h2; decide
  · rintro rfl; revert h3; decide
  · rintro rfl; revert h4; decide
  · rintro rfl; revert h5; decide
  · rintro rfl; revert h6; decide

/-- `startsWith` holds on any extension of the tested prefix. -/
theorem startsWith_append (pre rest : Str) :
    startsWith (pre ++ rest) pre = true := by
  induction pre with
  | nil => cases rest <;> rfl
  | cons c cs ih => simpa [startsWith] using ih

/-- C10: the scheme test lowers the header first, so every casing of
`"bearer "` followed by a token `t` passes the malformed-header check and
authenticates by `t` alone — the token is everything after the first space
of the raw header, which is exactly `t`; a header that is just the scheme
word with its trailing space carries the empty token, is treated as
well-formed, and (no stored session having an empty token) fails with
"Invalid or expired token" rather than "Invalid Authorization header". -/
theorem bearer_scheme_case_insensitive (db : DB) (now : Nat) (cs t : Str)
    (hcs : lowerStr cs = bearerScheme)
    (hno : ∀ s ∈ db.session, s.token ≠ []) :
    (get_current_user db now (some (cs ++ t)) =
      match get_user_by_token db now t with
      | none => .err 401 invalidTokenDetail
      | some u => .ok u) ∧
    get_current_user db now (some cs) = .err 401 invalidTokenDetail := by
  obtain ⟨a, b, c, d, e, f, rfl, ha, hb2, hc2, hd, he, hf⟩ := casing_structure cs hcs
  have haf : ∀ t' : Str, afterFirstSpace ([a, b, c, d, e, f, ' '] ++ t') = t' := by
    intro t'
    simp [afterFirstSpace, ha, hb2, hc2, hd, he, hf]
  have hempty : get_user_by_token db now [] = none := by
    unfold get_user_by_token
    have hfind :
        db.session.find? (fun s => s.token == [] && decide (now < s.expires_at)) = none := by
      rw [List.find?_eq_none]
      intro s hs
      simp [hno s hs]
    rw [hfind]
  constructor
  · have hpre : startsWith (lowerStr ([a, b, c, d, e, f, ' '] ++ t)) bearerScheme = true := by
      have hl : lowerStr ([a, b, c, d, e, f, ' '] ++ t) = bearerScheme ++ lowerStr t := by
        unfold lowerStr at hcs ⊢
        rw [List.map_append, hcs]
      rw [hl]
      exact startsWith_append _ _
    simp only [get_current_user]
    rw [haf t, hpre]
    rw [if_neg (by simp : ¬ ([a, b, c, d, e, f, ' '] ++ t = []))]
    rw [if_neg (by decide : ¬ ((!true) = true))]
  · have hpre2 : startsWith (lowerStr [a, b, c, d, e, f, ' ']) bearerScheme = true := by
      rw [hcs]
      simpa using startsWith_append bearerScheme []
    have haf2 : afterFirstSpace [a, b, c, d, e, f, ' '] = [] := by
      simpa using haf []
    simp only [get_current_user]
    rw [haf2, hpre2, hempty]
    rw [if_neg (by simp : ¬ (([a, b, c, d, e, f, ' '] : Str) = []))]
    rw [if_neg (by decide : ¬ ((!true) = true))]

/-- Witness for C10: the mixed casing `"BeArEr "` with an unknown token,
and alone with its trailing space, both fail with the invalid-token error
on the concrete store. -/
theorem bearer_scheme_case_insensitive_witness :
    lowerStr "BeArEr ".toList = bearerScheme ∧
    get_current_user dbW 0 (some ("BeArEr ".toList ++ ['x'])) =
      .err 401 invalidTokenDetail ∧
    get_current_user dbW 0 (some "BeArEr ".toList) = .err 401 invalidTokenDetail :=
  ⟨by decide,
   (bearer_scheme_case_insensitive dbW 0 "BeArEr ".toList ['x']
      (by decide) (by decide)).1.trans (by decide),
   (bearer_scheme_case_insensitive dbW 0 "BeArEr ".toList ['x']
      (by decide) (by decide)).2⟩

/-- Taking a positive number of elements keeps the head. -/
theorem head?_take_pos {α : Type} (l : List α) (n : Nat) (hn : 0 < n) :
    (l.take n).head? = l.head? := by
  cases l with
  | nil => simp
  | cons a as =>
    cases n with
    | zero => omega
    | succ k => simp [List.take_succ_cons]

/-- A message strictly newer than every other stored message heads the
batch sorted by descending creation time. -/
theorem head_of_sortByCreatedDesc (msgs : List MessageDoc) (m : MessageDoc)
    (hmem : m ∈ msgs)
    (hmax : ∀ x ∈ msgs, x ≠ m → x.created_at < m.created_at) :
    (sortByCreatedDesc msgs).head? = some m := by
  have hperm := List.mergeSort_perm msgs
    (fun a b => decide (b.created_at ≤ a.created_at))
  have hpw := sortByCreatedDesc_pairwise msgs
  rcases hs : sortByCreatedDesc msgs with _ | ⟨h, rest⟩
  · exfalso
    have hm : m ∈ sortByCreatedDesc msgs := by
      unfold sortByCreatedDesc
      exact hperm.symm.subset hmem
    rw [hs] at hm
    exact absurd hm (List.not_mem_nil m)
  · have hhm : h ∈ msgs := by
      have hh : h ∈ sortByCreatedDesc msgs := by
        rw [hs]
        exact List.mem_cons_self h rest
      unfold sortByCreatedDesc at hh
      exact hperm.subset hh
    by_cases heq : h = m
    · rw [heq]
      rfl
    · exfalso
      have hm2 : m ∈ h :: rest := by
        rw [← hs]
        unfold sortByCreatedDesc
        exact hperm.symm.subset hmem
      rw [hs] at hpw
      rcases List.mem_cons.1 hm2 with hm2 | hm2
      · exact heq (hm2.symm)
      · have hle := List.rel_of_pairwise_cons hpw hm2
        simp only [decide_eq_true_eq] at hle
        have hlt := hmax h hhm heq
        omega

/-- C7: in a store whose messages all predate `now`, posting valid content
at `now` and then listing yields a sequence whose last element is exactly
the posted message's view: the fresh id, the posting user's registered
name, the posted content, and the posting time. -/
theorem post_then_list_last (db : DB) (now : Nat) (user : UserDoc) (content : Str)
    (hvalid : contentValid content = true)
    (hfresh : ∀ m ∈ db.chatmessage, m.created_at < now)
    (huser : db.authuser.find? (fun u => u.id == user.id) = some user) :
    (list_messages (post_message db now user content).2).getLast? =
      some ⟨db.nextId, user.name, content, now⟩ := by
  have hdb : (post_message db now user content).2 =
      { authuser := db.authuser
        session := db.session
        chatmessage := db.chatmessage ++ [⟨db.nextId, user.id, content, now⟩]
        nextId := db.nextId + 1 } := by
    unfold post_message createMessageDocument
    rw [hvalid]
    rfl
  rw [hdb]
  unfold list_messages
  rw [List.getLast?_reverse, List.head?_map]
  have hhead :
      (sortByCreatedDesc (db.chatmessage ++ [⟨db.nextId, user.id, content, now⟩])).head? =
        some ⟨db.nextId, user.id, content, now⟩ := by
    apply head_of_sortByCreatedDesc
    · exact List.mem_append_right _ (List.mem_singleton_self _)
    · intro x hx hne
      rcases List.mem_append.1 hx with hx | hx
      · exact hfresh x hx
      · exact absurd (List.mem_singleton.1 hx) hne
  rw [head?_take_pos _ 50 (by omega), hhead]
  unfold messageView findUserById
  simp [huser]

/-- Witness for C7: Alice posts "hi" at time 5 into the concrete store and
the listing ends with her message. -/
theorem post_then_list_last_witness :
    contentValid ['h', 'i'] = true ∧
    (list_messages (post_message dbW 5 userW ['h', 'i']).2).getLast? =
      some ⟨dbW.nextId, userW.name, ['h', 'i'], 5⟩ :=
  ⟨by decide,
   post_then_list_last dbW 5 userW ['h', 'i'] (by decide) (by decide) (by decide)⟩

/-- Witness for C3: the length clause evaluated on the concrete store. -/
theorem list_messages_spec_witness :
    (list_messages dbW).length = min 50 dbW.chatmessage.length :=
  (list_messages_spec dbW).1
